import Mathlib

/-!
Verification of the `pic-od-vsc` VS Code extension sources.

The development shallowly embeds the two source modules:

* `src/index.ts` — the upload pipeline: `formatUrl` (template substitution via
  JavaScript `String.prototype.replace` with a global regex), `uploadImages`
  (the `close`/`error` handlers of the spawned `pic-od` process), and
  `handleUpload` (batch orchestration: filter, format, insert-or-warn).
* `src/clipboard.ts` — platform clipboard extractors and the
  `saveClipboardImage` facade, modelled as pure functions over an environment
  that records the outcome of each external command (`exec` rejection or not,
  and the state of the staged temp file after the command), threading the
  staged file's state (`Option Nat` = size of the file, `none` = absent).

Machine-level effects (process spawning, the file system) are abstracted into
explicit oracle values describing one concrete execution trace; every branch
of the TypeScript control flow is reproduced.
-/

/- ### JavaScript string primitives used by `src/index.ts` -/

/-- The code points removed by JavaScript `String.prototype.trim`
(ECMA-262 TrimString: WhiteSpace ∪ LineTerminator). -/
def jsWhitespaceCodes : List Nat :=
  [9, 10, 11, 12, 13, 32, 160, 5760, 8192, 8193, 8194, 8195, 8196, 8197,
   8198, 8199, 8200, 8201, 8202, 8232, 8233, 8239, 8287, 12288, 65279]

def jsIsWhitespace (c : Char) : Bool :=
  jsWhitespaceCodes.contains c.toNat

/-- JavaScript `String.prototype.trim`. -/
def jsTrim (s : String) : String :=
  ⟨((s.data.dropWhile jsIsWhitespace).reverse.dropWhile jsIsWhitespace).reverse⟩

/-- ECMA-262 GetSubstitution for a string replacement with zero capture
groups: scans the replacement text and expands the dollar escapes
`$$` (a dollar sign), `$&` (the matched substring), a dollar followed by a
backquote (the text before the match) and a dollar followed by a quote
(the text after the match); any other dollar sequence is literal text.
`matched` is the matched substring, `before`/`after` the parts of the
original string around the match. -/
def getSubstitution (matched before after : List Char) : List Char → List Char
  | [] => []
  | [c] => [c]
  | c :: d :: rest2 =>
    if c = '$' then
      if d = '$' then '$' :: getSubstitution matched before after rest2
      else if d = '&' then matched ++ getSubstitution matched before after rest2
      else if d = Char.ofNat 96 then before ++ getSubstitution matched before after rest2
      else if d = Char.ofNat 39 then after ++ getSubstitution matched before after rest2
      else c :: getSubstitution matched before after (d :: rest2)
    else c :: getSubstitution matched before after (d :: rest2)

/-- One pass of JavaScript `String.prototype.replace` with a global regex
whose pattern is the literal character sequence `pat`: non-overlapping
left-to-right matches, each replaced by the GetSubstitution expansion of
`rep`.  `beforeRev` is the already-scanned part of the original string in
reverse; `fuel` bounds the recursion and is initialised to the string
length (each step consumes at least one character, so the fuel never runs
out on the initial call). -/
def jsReplaceAux (pat rep : List Char) : Nat → List Char → List Char → List Char
  | 0, _, cur => cur
  | _ + 1, _, [] => []
  | fuel + 1, beforeRev, c :: rest =>
    if !pat.isEmpty && pat.isPrefixOf (c :: rest) then
      getSubstitution pat beforeRev.reverse ((c :: rest).drop pat.length) rep
        ++ jsReplaceAux pat rep fuel (pat.reverse ++ beforeRev) ((c :: rest).drop pat.length)
    else
      c :: jsReplaceAux pat rep fuel (c :: beforeRev) rest

/-- JavaScript `s.replace(/pat/g, rep)` where `pat` is a literal pattern. -/
def jsReplace (s pat rep : String) : String :=
  ⟨jsReplaceAux pat.data rep.data s.data.length [] s.data⟩

/-- Modelled from the spec: plain global literal replacement — every
non-overlapping occurrence of `pat` in `s` replaced by the replacement
text itself, with no dollar-escape processing.  This is the reference
semantics the spec's words describe for the Result Formatter ("replaces
all occurrences of two literal placeholder tokens with the corresponding
values"); it is compared against `jsReplace`, the embedding of the code. -/
def literalReplaceAux (pat rep : List Char) : Nat → List Char → List Char
  | 0, cur => cur
  | _ + 1, [] => []
  | fuel + 1, c :: rest =>
    if !pat.isEmpty && pat.isPrefixOf (c :: rest) then
      rep ++ literalReplaceAux pat rep fuel ((c :: rest).drop pat.length)
    else
      c :: literalReplaceAux pat rep fuel rest

/-- Modelled from the spec: global literal replacement, string version. -/
def literalReplace (s pat rep : String) : String :=
  ⟨literalReplaceAux pat.data rep.data s.data.length s.data⟩

/-- A replacement text is dollar-literal when GetSubstitution leaves it
unchanged: every `$` is at the end or followed by a character other than
`$`, `&`, backquote and quote. -/
def dollarLiteral : List Char → Bool
  | [] => true
  | [_] => true
  | c :: d :: rest2 =>
    if c = '$' then
      !(d = '$' || d = '&' || d = Char.ofNat 96 || d = Char.ofNat 39) && dollarLiteral (d :: rest2)
    else dollarLiteral (d :: rest2)

/- ### `src/index.ts` -/

/-- The `UploadResult` interface of `src/index.ts`. -/
structure UploadResult where
  filename : String
  url : String
deriving DecidableEq

/-- The literal pattern of the regex `/\$\x7bfileName\x7d/g`. -/
def fileNameToken : String := "$\x7bfileName\x7d"

/-- The literal pattern of the regex `/\$\x7burl\x7d/g`. -/
def urlToken : String := "$\x7burl\x7d"

/-- `formatUrl` from `src/index.ts`: replace the `fileName` placeholder
globally, then the `url` placeholder globally, via JavaScript `replace`. -/
def formatUrl (template : String) (result : UploadResult) : String :=
  jsReplace (jsReplace template fileNameToken result.filename) urlToken result.url

/-- Node `path.basename` (posix, no extension argument): strip trailing
separators, then take the final path component. -/
def basename (p : String) : String :=
  ⟨(((p.data.reverse).dropWhile (fun c => c = '/')).takeWhile (fun c => c != '/')).reverse⟩

/-- JavaScript `String.prototype.split` with a single-character
separator: splitting the empty string yields one empty field, and every
separator occurrence starts a new field. -/
def splitOnChar (sep : Char) : List Char → List (List Char)
  | [] => [[]]
  | c :: rest =>
    if c = sep then [] :: splitOnChar sep rest
    else
      match splitOnChar sep rest with
      | [] => [[c]]
      | h :: t => (c :: h) :: t

/-- Output parsing in `uploadImages`: `stdout.trim().split(newline).filter(Boolean)`. -/
def parseUrls (stdout : String) : List String :=
  ((splitOnChar '\n' (jsTrim stdout).data).map (fun l => (⟨l⟩ : String))).filter
    (fun s => s != "")

/-- The result list built in the `close` handler of `uploadImages`:
`imagePaths.map((imagePath, index) => ...)` pairing each input path's
basename with the url at the same index, or the empty string when the
index is past the parsed url list (`urls[index] || choose-empty`). -/
def uploadResults (imagePaths : List String) (stdout : String) : List UploadResult :=
  imagePaths.enum.map fun pr =>
    { filename := basename pr.2, url := (parseUrls stdout).getD pr.1 "" }

/-- How the spawned `pic-od` process settles the promise in `uploadImages`:
either the `close` event fires with an exit code (`none` models a `null`
code, i.e. termination by signal) and the accumulated stdout/stderr text,
or the `error` event fires with the spawn error's message. -/
inductive SpawnOutcome where
  | closed (code : Option Int) (stdout : String) (stderr : String)
  | errored (message : String)
deriving DecidableEq

/-- JavaScript string interpolation of the possibly-`null` exit code. -/
def codeString : Option Int → String
  | none => "null"
  | some n => toString n

/-- The promise body of `uploadImages` from `src/index.ts`, as a function
of the spawn outcome: on `error`, reject with the "Failed to execute"
message; on `close` with non-zero (or null) code, reject with stderr if
non-empty else the generic exit-code message; on `close` with code 0,
resolve with the positionally zipped results. -/
def uploadImages (imagePaths : List String) (outcome : SpawnOutcome) :
    Except String (List UploadResult) :=
  match outcome with
  | .errored m => .error ("Failed to execute pic-od: " ++ m)
  | .closed code stdout stderr =>
    if code ≠ some 0 then
      .error (if stderr ≠ "" then stderr else "pic-od exited with code " ++ codeString code)
    else
      .ok (uploadResults imagePaths stdout)

/-- The user-visible outcome of `handleUpload`: text inserted at the
cursor, the "No URLs returned from upload" warning, or the
"Upload failed" error notification. -/
inductive UploadUIAction where
  | inserted (text : String)
  | warnedNoUrls
  | failed (message : String)
deriving DecidableEq

/-- `handleUpload` from `src/index.ts`, as a function of the upload
outcome: on success, keep the results with a truthy (non-empty) url,
format each with the template, join with newlines, and insert if the
joined text is truthy, else warn; on failure show the error message. -/
def handleUpload (urlTemplate : String) (outcome : Except String (List UploadResult)) :
    UploadUIAction :=
  match outcome with
  | .error m => .failed ("Upload failed: " ++ m)
  | .ok results =>
    let formattedUrls :=
      String.intercalate "\n" ((results.filter (fun r => r.url != "")).map
        (fun r => formatUrl urlTemplate r))
    if formattedUrls != "" then .inserted formattedUrls else .warnedNoUrls

/- ### `src/clipboard.ts` -/

/-- Errors thrown by the embedded clipboard code: either a plain runtime
`Error` (from `exec`, `fs.stat`, ...) carrying a message, or the
`ClipboardError` class of `src/clipboard.ts`, carrying a message and an
optional underlying cause. -/
inductive JsError where
  | generic (message : String) : JsError
  | clipboardErr (message : String) (cause : Option JsError) : JsError

/-- Oracle for one external command touching the staged temp file:
whether the awaited `exec` promise rejects, the rejection `Error`'s
message, and the state of the temp file once the command has finished
(`none` = the file does not exist, `some n` = it exists with size `n`).
A command that fails can still leave a file behind — e.g. the shell
redirection `> file` creates an empty file even when the tool is missing
— so `fileAfter` is meaningful in both cases. -/
structure ExecEffect where
  throws : Bool
  errMessage : String
  fileAfter : Option Nat
deriving DecidableEq

/-- Trace oracle for `saveClipboardImageDarwin`: the `pngpaste` attempt
and the `osascript` fallback. -/
structure DarwinEnv where
  pngpaste : ExecEffect
  osascript : ExecEffect
deriving DecidableEq

/-- Trace oracle for `saveClipboardImageLinux`: the `xclip` attempt and
the `xsel` fallback. -/
structure LinuxEnv where
  xclip : ExecEffect
  xsel : ExecEffect
deriving DecidableEq

/-- The host platform together with the trace oracle of the extractor
that would run on it (mirrors the `os.platform()` switch). -/
inductive PlatformEnv where
  | darwin (env : DarwinEnv)
  | linux (env : LinuxEnv)
  | win32 (env : ExecEffect)
  | other (name : String)
deriving DecidableEq

/-- Environment of one `saveClipboardImage` call: the platform oracle and
the message of the `Error` that `fs.promises.stat` would reject with if
the staged file is missing at the facade's verification step. -/
structure AcquireEnv where
  platform : PlatformEnv
  statErrMessage : String
deriving DecidableEq

def darwinMsg : String :=
  "No image in clipboard. Install pngpaste for better support: brew install pngpaste"

def linuxMsg : String :=
  "No image in clipboard or missing clipboard tools. Install xclip: sudo apt install xclip"

def windowsMsg : String := "No image in clipboard"

def facadeWrapMsg : String := "Failed to save clipboard image"

def facadeEmptyMsg : String := "No image in clipboard"

/-- `saveClipboardImageDarwin` from `src/clipboard.ts`: try `pngpaste`
and return on success; otherwise run the `osascript` fallback, wrapping
its failure in a `ClipboardError`.  Result: the extractor's outcome and
the staged file's state when the extractor returns. -/
def saveClipboardImageDarwin (env : DarwinEnv) : Except JsError Unit × Option Nat :=
  if env.pngpaste.throws = false then (.ok (), env.pngpaste.fileAfter)
  else if env.osascript.throws = false then (.ok (), env.osascript.fileAfter)
  else
    (.error (.clipboardErr darwinMsg (some (.generic env.osascript.errMessage))),
     env.osascript.fileAfter)

/-- One `try` block of `saveClipboardImageLinux`: run the tool with its
output redirected to the target file; if the `exec` promise rejects the
`catch` swallows the error (file left as the command left it); otherwise
`stat` the file — a missing file makes `stat` throw (also swallowed), a
non-empty file is success, and an empty file is deleted and counted as
failure.  Returns (succeeded, file state after the attempt). -/
def linuxAttempt (eff : ExecEffect) : Bool × Option Nat :=
  if eff.throws then (false, eff.fileAfter)
  else
    match eff.fileAfter with
    | none => (false, none)
    | some sz => if sz = 0 then (false, none) else (true, some sz)

/-- `saveClipboardImageLinux` from `src/clipboard.ts`: the `xclip`
attempt, then the `xsel` attempt, then the `ClipboardError` naming the
installable tool when both have failed. -/
def saveClipboardImageLinux (env : LinuxEnv) : Except JsError Unit × Option Nat :=
  match linuxAttempt env.xclip with
  | (true, fs) => (.ok (), fs)
  | (false, _) =>
    match linuxAttempt env.xsel with
    | (true, fs) => (.ok (), fs)
    | (false, fs) => (.error (.clipboardErr linuxMsg none), fs)

/-- `saveClipboardImageWindows` from `src/clipboard.ts`: one PowerShell
invocation; a rejection is wrapped in a `ClipboardError`. -/
def saveClipboardImageWindows (eff : ExecEffect) : Except JsError Unit × Option Nat :=
  if eff.throws = false then (.ok (), eff.fileAfter)
  else (.error (.clipboardErr windowsMsg (some (.generic eff.errMessage))), eff.fileAfter)

/-- The platform `switch` of `saveClipboardImage`: dispatch to the
platform extractor, or throw the unsupported-platform `ClipboardError`
for any other platform identifier (no file was ever created there). -/
def dispatchExtractor (penv : PlatformEnv) : Except JsError Unit × Option Nat :=
  match penv with
  | .darwin env => saveClipboardImageDarwin env
  | .linux env => saveClipboardImageLinux env
  | .win32 eff => saveClipboardImageWindows eff
  | .other name => (.error (.clipboardErr ("Unsupported platform: " ++ name) none), none)

/-- The `catch` block of `saveClipboardImage`: delete the staged file,
ignoring deletion errors (so the file state is `none` afterwards), then
rethrow a `ClipboardError` unchanged and wrap any other error in
`ClipboardError`'s generic wrap message with the original as the cause. -/
def catchClause (err : JsError) : Except JsError Unit × Option Nat :=
  match err with
  | .clipboardErr m c => (.error (.clipboardErr m c), none)
  | .generic m => (.error (.clipboardErr facadeWrapMsg (some (.generic m))), none)

/-- `saveClipboardImage` from `src/clipboard.ts`: dispatch to the
platform extractor inside a `try`; on extractor success, `stat` the
target file (a missing file makes `stat` throw a plain `Error`), delete
it and throw the "no image" `ClipboardError` if its size is 0, and
otherwise return it.  Every thrown error reaches the `catch` clause.
`.ok ()` models returning `outputPath`; the second component is the
staged file's state at the moment the call settles. -/
def saveClipboardImage (env : AcquireEnv) : Except JsError Unit × Option Nat :=
  match dispatchExtractor env.platform with
  | (.error e, _) => catchClause e
  | (.ok _, fs) =>
    match fs with
    | none => catchClause (.generic env.statErrMessage)
    | some sz =>
      if sz = 0 then catchClause (.clipboardErr facadeEmptyMsg none)
      else (.ok (), some sz)

/- ### Lemmas about the replacement machinery -/

/-- GetSubstitution is the identity on a dollar-literal replacement text. -/
theorem getSubstitution_of_dollarLiteral (matched before after : List Char) :
    ∀ rep, dollarLiteral rep = true → getSubstitution matched before after rep = rep := by
  intro rep
  induction rep with
  | nil => intro _; rfl
  | cons c rest ih =>
    cases rest with
    | nil => intro _; rfl
    | cons d rest2 =>
      intro h
      by_cases hc : c = '$'
      · subst hc
        rw [dollarLiteral, if_pos rfl, Bool.and_eq_true] at h
        obtain ⟨hd, hrest⟩ := h
        simp only [Bool.not_eq_true', Bool.or_eq_false_iff, decide_eq_false_iff_not] at hd
        obtain ⟨⟨⟨h1, h2⟩, h3⟩, h4⟩ := hd
        rw [getSubstitution, if_pos rfl, if_neg h1, if_neg h2, if_neg h3, if_neg h4,
          ih hrest]
      · rw [dollarLiteral, if_neg hc] at h
        rw [getSubstitution, if_neg hc, ih h]

/-- With a dollar-literal replacement text, the JavaScript scanner agrees
with plain global literal replacement. -/
theorem jsReplaceAux_eq_literalReplaceAux (pat rep : List Char)
    (hrep : dollarLiteral rep = true) :
    ∀ (fuel : Nat) (beforeRev cur : List Char),
      jsReplaceAux pat rep fuel beforeRev cur = literalReplaceAux pat rep fuel cur := by
  intro fuel
  induction fuel with
  | zero => intro _ _; rfl
  | succ n ih =>
    intro beforeRev cur
    cases cur with
    | nil => rfl
    | cons c rest =>
      rw [jsReplaceAux, literalReplaceAux]
      by_cases hmatch : (!pat.isEmpty && pat.isPrefixOf (c :: rest)) = true
      · rw [if_pos hmatch, if_pos hmatch,
          getSubstitution_of_dollarLiteral _ _ _ _ hrep, ih]
      · rw [if_neg hmatch, if_neg hmatch, ih]

/-- String version of the agreement between `jsReplace` and `literalReplace`. -/
theorem jsReplace_eq_literalReplace (s pat rep : String)
    (hrep : dollarLiteral rep.data = true) :
    jsReplace s pat rep = literalReplace s pat rep := by
  unfold jsReplace literalReplace
  rw [jsReplaceAux_eq_literalReplaceAux _ _ hrep]

/- ### Claims C4 and C10: the Result Formatter -/

/-- Claim C4 (amended): `formatUrl` performs the global replacement of the
two placeholder tokens through JavaScript `replace`, whose replacement
text is subject to dollar-escape expansion; whenever the filename and url
values are dollar-literal (no `$$`, `$&`, dollar-backquote or
dollar-quote sequence — in particular whenever they contain no dollar at
all), every occurrence of the `fileName` token is replaced by the
filename value and then every occurrence of the `url` token by the url
value, as plain global literal replacement.  `formatUrl` is a total
function, so it never fails. -/
theorem formatUrl_literal_of_dollarLiteral (template : String) (r : UploadResult)
    (h1 : dollarLiteral r.filename.data = true) (h2 : dollarLiteral r.url.data = true) :
    formatUrl template r =
      literalReplace (literalReplace template fileNameToken r.filename) urlToken r.url := by
  unfold formatUrl
  rw [jsReplace_eq_literalReplace _ _ _ h1, jsReplace_eq_literalReplace _ _ _ h2]

/-- Witness for claim C4: on the spec's own example, both placeholder
occurrences are replaced — template `$\x7burl\x7d $\x7burl\x7d` with url
`x` yields `x x`. -/
theorem formatUrl_literal_of_dollarLiteral_witness :
    dollarLiteral "x".data = true ∧
      formatUrl "$\x7burl\x7d $\x7burl\x7d" { filename := "f", url := "x" } = "x x" := by
  refine ⟨by decide, ?_⟩
  rw [formatUrl_literal_of_dollarLiteral _ _ (by decide) (by decide)]
  rfl

/-- Counterexample to claim C4 as stated: with url value `$$`, the
template `$\x7burl\x7d` does not become `$$` (the occurrence replaced by
the url value); JavaScript `replace` expands `$$` to a single dollar. -/
theorem formatUrl_dollar_counterexample :
    formatUrl "$\x7burl\x7d" { filename := "f", url := "$$" } = "$" ∧
      ("$" : String) ≠ "$$" := ⟨rfl, by decide⟩

/-- Claim C10 (amended): `formatUrl` substitutes the `fileName`
placeholder first, so for every template and every dollar-literal
filename value containing the literal text `$\x7burl\x7d`, the
occurrences that inserting the filename introduces are processed by the
subsequent url substitution along with the original ones: the result is
the url-token replacement pass (JavaScript `replace`, with dollar-escape
expansion of the url value) applied to the template with every
`fileName` token literally replaced by the filename; and whenever the
url value is itself dollar-literal, every such occurrence — introduced
or original — is replaced with the url value verbatim. -/
theorem formatUrl_fileName_sub_first (template fn url : String)
    (hfn : dollarLiteral fn.data = true)
    (_hcontains : List.IsInfix urlToken.data fn.data) :
    (formatUrl template { filename := fn, url := url } =
      jsReplace (literalReplace template fileNameToken fn) urlToken url) ∧
    (dollarLiteral url.data = true →
      formatUrl template { filename := fn, url := url } =
        literalReplace (literalReplace template fileNameToken fn) urlToken url) := by
  constructor
  · show jsReplace (jsReplace template fileNameToken fn) urlToken url = _
    rw [jsReplace_eq_literalReplace template fileNameToken fn hfn]
  · intro hu
    show jsReplace (jsReplace template fileNameToken fn) urlToken url = _
    rw [jsReplace_eq_literalReplace template fileNameToken fn hfn,
      jsReplace_eq_literalReplace _ urlToken url hu]

/-- Witness for claim C10: filename value `a$\x7burl\x7db` — which
properly contains the url token — substituted into the `fileName` token
has the introduced occurrence replaced by the url value `x`, giving
`axb`. -/
theorem formatUrl_fileName_sub_first_witness :
    formatUrl "$\x7bfileName\x7d" { filename := "a$\x7burl\x7db", url := "x" } = "axb" := by
  have h := (formatUrl_fileName_sub_first "$\x7bfileName\x7d" "a$\x7burl\x7db" "x"
    (by decide) ⟨"a".data, "b".data, by decide⟩).2 (by decide)
  rw [h]
  rfl

/-- Counterexample to claim C10 as stated: with url value `$$`, the
introduced `$\x7burl\x7d` occurrence is rewritten to a single dollar, not
to the url value `$$`. -/
theorem formatUrl_order_counterexample :
    formatUrl "$\x7bfileName\x7d" { filename := "$\x7burl\x7d", url := "$$" } = "$" ∧
      ("$" : String) ≠ "$$" := ⟨rfl, by decide⟩

/- ### Lemmas about the upload result list -/

theorem uploadResults_length (p : List String) (s : String) :
    (uploadResults p s).length = p.length := by
  simp [uploadResults]

theorem uploadResults_getElem? (p : List String) (s : String) (i : Nat) (h : i < p.length) :
    (uploadResults p s)[i]? =
      some { filename := basename (p.getD i ""), url := (parseUrls s).getD i "" } := by
  unfold uploadResults
  rw [List.getElem?_map, List.getElem?_enum, List.getElem?_eq_getElem h,
    List.getD_eq_getElem _ _ h]
  rfl

/- ### Claims C3, C9 and C6: the Upload Invoker -/

/-- Claim C3: when the process closes with exit code 0 and the parsed
output has `M` lines with `M < N` input paths, `uploadImages` resolves
(never rejects) with one result per input; each result at index `i < M`
carries the `i`-th output line as its url and every result at an index
from `M` up to `N - 1` carries the empty string as its url. -/
theorem uploadImages_pads_missing_urls (paths : List String) (stdout stderr : String)
    (h : (parseUrls stdout).length < paths.length) :
    uploadImages paths (.closed (some 0) stdout stderr) = .ok (uploadResults paths stdout) ∧
    (uploadResults paths stdout).length = paths.length ∧
    (∀ i (hi : i < (parseUrls stdout).length),
      ((uploadResults paths stdout)[i]?).map UploadResult.url =
        some ((parseUrls stdout).get ⟨i, hi⟩)) ∧
    (∀ i, (parseUrls stdout).length ≤ i → i < paths.length →
      ((uploadResults paths stdout)[i]?).map UploadResult.url = some "") := by
  refine ⟨?_, uploadResults_length _ _, ?_, ?_⟩
  · simp only [uploadImages]
    rw [if_neg (fun hh => hh rfl)]
  · intro i hi
    rw [uploadResults_getElem? _ _ _ (Nat.lt_trans hi h), Option.map_some',
      List.getD_eq_getElem _ _ hi]
    rfl
  · intro i h1 h2
    rw [uploadResults_getElem? _ _ _ h2, Option.map_some',
      List.getD_eq_default _ _ h1]

/-- Witness for claim C3: two input paths, one output line — the call
resolves and the second result's url is the empty string. -/
theorem uploadImages_pads_missing_urls_witness :
    uploadImages ["a/x.png", "b.png"] (.closed (some 0) "u1\n" "") =
      .ok (uploadResults ["a/x.png", "b.png"] "u1\n") ∧
    ((uploadResults ["a/x.png", "b.png"] "u1\n")[1]?).map UploadResult.url = some "" := by
  have h := uploadImages_pads_missing_urls ["a/x.png", "b.png"] "u1\n" "" (by decide)
  exact ⟨h.1, h.2.2.2 1 (by decide) (by decide)⟩

/-- Claim C9: on exit code 0 the call resolves with exactly one result
per input path, in input order; the result at index `i` pairs the
basename of the `i`-th input path with the `i`-th parsed output line (or
the empty string past the parsed lines).  The results are fully
determined by the indices below the input count, so output lines at index
`N` and beyond are silently discarded. -/
theorem uploadImages_result_shape (paths : List String) (stdout stderr : String) :
    uploadImages paths (.closed (some 0) stdout stderr) = .ok (uploadResults paths stdout) ∧
    (uploadResults paths stdout).length = paths.length ∧
    (∀ i (hi : i < paths.length),
      (uploadResults paths stdout)[i]? =
        some { filename := basename (paths.get ⟨i, hi⟩),
               url := (parseUrls stdout).getD i "" }) := by
  refine ⟨?_, uploadResults_length _ _, ?_⟩
  · simp only [uploadImages]
    rw [if_neg (fun hh => hh rfl)]
  · intro i hi
    rw [uploadResults_getElem? _ _ _ hi, List.getD_eq_getElem _ _ hi]
    rfl

/-- Witness for claim C9: two input paths and three output lines — the
call resolves with exactly two results and the first pairs the basename
`b.png` with the first line; the third line produces nothing. -/
theorem uploadImages_result_shape_witness :
    uploadImages ["a/b.png", "c.png"] (.closed (some 0) "u1\nu2\nu3\n" "") =
      .ok (uploadResults ["a/b.png", "c.png"] "u1\nu2\nu3\n") ∧
    (uploadResults ["a/b.png", "c.png"] "u1\nu2\nu3\n")[0]? =
      some { filename := "b.png", url := "u1" } ∧
    (uploadResults ["a/b.png", "c.png"] "u1\nu2\nu3\n").length = 2 := by
  have h := uploadImages_result_shape ["a/b.png", "c.png"] "u1\nu2\nu3\n" ""
  refine ⟨h.1, ?_, h.2.1⟩
  rw [h.2.2 0 (by decide)]
  rfl

/-- Claim C6: `uploadImages` rejects exactly on a non-zero (or null) exit
code — with the captured stderr text when non-empty and the generic
exited-with-code message otherwise — or on a spawn failure, with the
distinct "Failed to execute" message wrapping the underlying error's
message; on exit code 0 it resolves. -/
theorem uploadImages_reject_conditions :
    (∀ (paths : List String) (m : String),
      uploadImages paths (.errored m) = .error ("Failed to execute pic-od: " ++ m)) ∧
    (∀ (paths : List String) (code : Option Int) (stdout stderr : String), code ≠ some 0 →
      uploadImages paths (.closed code stdout stderr) =
        .error (if stderr ≠ "" then stderr
                else "pic-od exited with code " ++ codeString code)) ∧
    (∀ (paths : List String) (stdout stderr : String),
      uploadImages paths (.closed (some 0) stdout stderr) =
        .ok (uploadResults paths stdout)) := by
  refine ⟨fun _ _ => rfl, ?_, fun paths stdout stderr => ?_⟩
  · intro paths code stdout stderr hc
    simp only [uploadImages]
    rw [if_pos hc]
  · simp only [uploadImages]
    rw [if_neg (fun hh => hh rfl)]

/-- Witness for claim C6: exit code 1 with empty stderr yields the
generic exited-with-code message. -/
theorem uploadImages_reject_conditions_witness :
    uploadImages ["p.png"] (.closed (some 1) "out" "") =
      .error "pic-od exited with code 1" := by
  rw [uploadImages_reject_conditions.2.1 ["p.png"] (some 1) "out" "" (by decide)]
  rfl

/- ### Claim C7: batch orchestration with no urls -/

/-- Claim C7: when the upload resolves but every result's url is empty,
`handleUpload` shows the distinct "No URLs returned" warning and inserts
nothing — it is not the hard-failure notification. -/
theorem handleUpload_no_urls_warning (urlTemplate : String) (results : List UploadResult)
    (h : ∀ r ∈ results, r.url = "") :
    handleUpload urlTemplate (.ok results) = .warnedNoUrls := by
  have hf : results.filter (fun r => r.url != "") = [] := by
    rw [List.filter_eq_nil_iff]
    intro r hr
    simp [h r hr]
  simp only [handleUpload]
  rw [hf]
  rfl

/-- Witness for claim C7: a single result with an empty url produces the
warning outcome. -/
theorem handleUpload_no_urls_warning_witness :
    handleUpload "t" (.ok [{ filename := "a.png", url := "" }]) = .warnedNoUrls :=
  handleUpload_no_urls_warning "t" _ (by decide)

/- ### Lemmas about the facade's catch clause -/

theorem catchClause_snd (e : JsError) : (catchClause e).2 = none := by
  cases e <;> rfl

theorem catchClause_fst_ne_ok (e : JsError) : (catchClause e).1 ≠ .ok () := by
  cases e <;> simp [catchClause]

/- ### Claims C1, C2 and C8: the Clipboard Acquisition Facade -/

/-- Claim C1: whenever `saveClipboardImage` fails — extractor failure,
unsupported platform, or the final non-empty verification failing — the
`catch` clause has deleted the staged temp file before the error
propagates, so no temp file is left on disk. -/
theorem saveClipboardImage_error_cleans_up (env : AcquireEnv) (e : JsError)
    (h : (saveClipboardImage env).1 = .error e) :
    (saveClipboardImage env).2 = none := by
  simp only [saveClipboardImage] at h ⊢
  rcases hd : dispatchExtractor env.platform with ⟨res, fs⟩
  rw [hd] at h
  cases res with
  | error e0 => exact catchClause_snd e0
  | ok u =>
    cases fs with
    | none => exact catchClause_snd _
    | some sz =>
      by_cases hsz : sz = 0
      · subst hsz
        show (catchClause (.clipboardErr facadeEmptyMsg none)).2 = none
        exact catchClause_snd _
      · simp [hsz] at h

/-- Witness for claim C1: on an unsupported platform the acquisition
fails and the staged file state is `none`. -/
theorem saveClipboardImage_error_cleans_up_witness :
    (saveClipboardImage ⟨.other "freebsd", "E"⟩).2 = none :=
  saveClipboardImage_error_cleans_up ⟨.other "freebsd", "E"⟩
    (.clipboardErr ("Unsupported platform: " ++ "freebsd") none) rfl

/-- Claim C2: whenever `saveClipboardImage` returns successfully, the
staged file exists with a size strictly greater than zero at the moment
of return — the facade re-checks the file after the extractor and the
zero-size case was deleted and turned into a failure. -/
theorem saveClipboardImage_success_nonempty (env : AcquireEnv)
    (h : (saveClipboardImage env).1 = .ok ()) :
    ∃ sz, (saveClipboardImage env).2 = some sz ∧ 0 < sz := by
  simp only [saveClipboardImage] at h ⊢
  rcases hd : dispatchExtractor env.platform with ⟨res, fs⟩
  rw [hd] at h
  cases res with
  | error e0 => exact absurd h (catchClause_fst_ne_ok e0)
  | ok u =>
    cases fs with
    | none => exact absurd h (catchClause_fst_ne_ok _)
    | some sz =>
      by_cases hsz : sz = 0
      · subst hsz
        have h2 : (catchClause (.clipboardErr facadeEmptyMsg none)).1 = .ok () := h
        exact absurd h2 (catchClause_fst_ne_ok _)
      · refine ⟨sz, ?_, Nat.pos_of_ne_zero hsz⟩
        simp [hsz]

/-- Witness for claim C2: a trace in which `pngpaste` succeeds and writes
a five-byte file makes the acquisition return with the file present and
non-empty. -/
theorem saveClipboardImage_success_nonempty_witness :
    ∃ sz, (saveClipboardImage ⟨.darwin ⟨⟨false, "", some 5⟩, ⟨true, "x", none⟩⟩, "E"⟩).2 =
      some sz ∧ 0 < sz :=
  saveClipboardImage_success_nonempty _ rfl

/-- Claim C8: every error thrown by `saveClipboardImage` is a
`ClipboardError` (a message plus an optional cause); a `ClipboardError`
raised inside the `try` propagates unchanged, and a plain error from the
facade's own `stat` verification is wrapped into a `ClipboardError`
carrying it as the cause. -/
theorem saveClipboardImage_errors_clipboard (env : AcquireEnv) (e : JsError)
    (h : (saveClipboardImage env).1 = .error e) :
    (∃ m c, e = .clipboardErr m c) ∧
    (∀ m c, (dispatchExtractor env.platform).1 = .error (.clipboardErr m c) →
      e = .clipboardErr m c) ∧
    ((dispatchExtractor env.platform).1 = .ok () → (dispatchExtractor env.platform).2 = none →
      e = .clipboardErr facadeWrapMsg (some (.generic env.statErrMessage))) := by
  simp only [saveClipboardImage] at h
  rcases hd : dispatchExtractor env.platform with ⟨res, fs⟩
  rw [hd] at h
  cases res with
  | error e0 =>
    cases e0 with
    | generic m0 =>
      have he : e = .clipboardErr facadeWrapMsg (some (.generic m0)) :=
        (Except.error.inj h).symm
      refine ⟨⟨_, _, he⟩, ?_, ?_⟩
      · intro m c hmc
        simp at hmc
      · intro hok _
        simp at hok
    | clipboardErr m0 c0 =>
      have he : e = .clipboardErr m0 c0 := (Except.error.inj h).symm
      refine ⟨⟨_, _, he⟩, ?_, ?_⟩
      · intro m c hmc
        have h2 := Except.error.inj hmc
        exact he.trans h2
      · intro hok _
        simp at hok
  | ok u =>
    cases u
    cases fs with
    | none =>
      have he : e = .clipboardErr facadeWrapMsg (some (.generic env.statErrMessage)) :=
        (Except.error.inj h).symm
      refine ⟨⟨_, _, he⟩, ?_, fun _ _ => he⟩
      intro m c hmc
      simp at hmc
    | some sz =>
      by_cases hsz : sz = 0
      · subst hsz
        have he : e = .clipboardErr facadeEmptyMsg none := (Except.error.inj h).symm
        refine ⟨⟨_, _, he⟩, ?_, ?_⟩
        · intro m c hmc
          simp at hmc
        · intro _ hnone
          simp at hnone
      · simp [hsz] at h

/-- Witness for claim C8: the Linux extractor's ClipboardError (both
tools failed) propagates through the facade unchanged. -/
theorem saveClipboardImage_errors_clipboard_witness :
    ∃ m c, (JsError.clipboardErr linuxMsg none) = JsError.clipboardErr m c :=
  (saveClipboardImage_errors_clipboard
    ⟨.linux ⟨⟨true, "a", none⟩, ⟨true, "b", none⟩⟩, "E"⟩
    (.clipboardErr linuxMsg none) rfl).1

/- ### Claim C5: the Linux extractor -/

/-- Claim C5: in the Linux extractor, each of the two tool attempts
verifies the output file's size after running the tool; a zero-byte file
is deleted and the attempt counts as a failure, and the `ClipboardError`
naming the installable tool (`Install xclip: sudo apt install xclip`) is
thrown exactly when both the `xclip` and the `xsel` attempts have
failed. -/
theorem saveClipboardImageLinux_verify_and_fallback (env : LinuxEnv) :
    (env.xclip.throws = false → env.xclip.fileAfter = some 0 →
      linuxAttempt env.xclip = (false, none)) ∧
    (env.xsel.throws = false → env.xsel.fileAfter = some 0 →
      linuxAttempt env.xsel = (false, none)) ∧
    (∀ e fs, saveClipboardImageLinux env = (.error e, fs) →
      (linuxAttempt env.xclip).1 = false ∧ (linuxAttempt env.xsel).1 = false ∧
      e = .clipboardErr linuxMsg none) ∧
    ((linuxAttempt env.xclip).1 = false → (linuxAttempt env.xsel).1 = false →
      saveClipboardImageLinux env =
        (.error (.clipboardErr linuxMsg none), (linuxAttempt env.xsel).2)) := by
  refine ⟨?_, ?_, ?_, ?_⟩
  · intro ht hf
    simp [linuxAttempt, ht, hf]
  · intro ht hf
    simp [linuxAttempt, ht, hf]
  · intro e fs h
    simp only [saveClipboardImageLinux] at h
    rcases h1 : linuxAttempt env.xclip with ⟨b1, f1⟩
    rw [h1] at h
    cases b1
    · rcases h2 : linuxAttempt env.xsel with ⟨b2, f2⟩
      rw [h2] at h
      cases b2
      · have he : JsError.clipboardErr linuxMsg none = e :=
          Except.error.inj (congrArg Prod.fst h)
        exact ⟨rfl, rfl, he.symm⟩
      · have hc := congrArg Prod.fst h
        simp at hc
    · have hc := congrArg Prod.fst h
      simp at hc
  · intro hx hs
    simp only [saveClipboardImageLinux]
    rcases h1 : linuxAttempt env.xclip with ⟨b1, f1⟩
    rw [h1] at hx
    rcases h2 : linuxAttempt env.xsel with ⟨b2, f2⟩
    rw [h2] at hs
    have hx2 : b1 = false := hx
    have hs2 : b2 = false := hs
    subst hx2
    subst hs2
    rfl

/-- Witness for claim C5: `xclip` exits cleanly but produces a zero-byte
file (deleted, counted as failure) and `xsel` rejects leaving an empty
file behind; the extractor throws the installable-tool error. -/
theorem saveClipboardImageLinux_verify_and_fallback_witness :
    linuxAttempt ⟨false, "", some 0⟩ = (false, none) ∧
    saveClipboardImageLinux ⟨⟨false, "", some 0⟩, ⟨true, "boom", some 0⟩⟩ =
      (.error (.clipboardErr linuxMsg none), some 0) := by
  obtain ⟨w1, _, _, w4⟩ :=
    saveClipboardImageLinux_verify_and_fallback ⟨⟨false, "", some 0⟩, ⟨true, "boom", some 0⟩⟩
  exact ⟨w1 rfl rfl, w4 rfl rfl⟩
